import Mathlib

/-!
Verification of the skill synchronization and conflict-resolution engine of the
ai-toolbox repository, as implemented in
src/web/features/skills/hooks/useSkillActions.ts (the useSkillActions hook, the
errorHandlers utilities and the syncSkillToTools batch helper).

The TypeScript code is shallowly embedded: each handler becomes a pure Lean
function from its inputs and an environment describing the backend collaborator
results (api.syncSkillToTool, api.unsyncSkillFromTool, api.reorderSkills,
refresh, refreshTrayMenu) and the user answers to confirmation dialogs, to the
trace of observable events (backend calls, prompts, log entries, notifications,
state updates, busy-flag transitions) plus any resulting state.
-/

namespace SkillSync

/-- A tool option as consumed by the hook: stable id plus display label. -/
structure ToolOption where
  id : String
  label : String
deriving Repr, DecidableEq

/-- A sync target entry on a skill: the tool key and the materialized path. -/
structure SyncTarget where
  tool : String
  path : String
deriving Repr, DecidableEq

/-- The fields of ManagedSkill that the embedded handlers read. -/
structure ManagedSkill where
  id : String
  name : String
  central_path : String
  targets : List SyncTarget
deriving Repr, DecidableEq

/-- Result of an awaited backend call: resolved, or rejected with an error
string (the code always applies String(error) to the rejection value). -/
inductive ApiResult where
  | ok
  | err (msg : String)
deriving Repr, DecidableEq

/-! Error-string parsing.

The code classifies conflicts with errMsg.includes, and extracts the payload
with errMsg.match applied to the regular expression TARGET_EXISTS\|(.+).
JavaScript regex dot does not match line terminators, and String.prototype.match
returns the leftmost position at which the whole pattern matches, so the
capture is the maximal run of non-line-terminator characters following the
first occurrence of the marker that is followed by at least one such character.
-/

/-- Line terminators that the JavaScript regex dot refuses to match:
LF, CR, LINE SEPARATOR, PARAGRAPH SEPARATOR. -/
def isLineTerm (c : Char) : Bool :=
  c = Char.ofNat 10 || c = Char.ofNat 13 || c = Char.ofNat 0x2028 || c = Char.ofNat 0x2029

/-- The marker the code searches for, as a character list. -/
def targetExistsMarker : List Char := "TARGET_EXISTS|".data

/-- Substring containment on character lists, mirroring String.prototype.includes. -/
def containsSub (pat : List Char) : List Char → Bool
  | [] => pat.isEmpty
  | c :: rest => pat.isPrefixOf (c :: rest) || containsSub pat rest

/-- Embeds errMsg.includes applied to the TARGET_EXISTS marker. -/
def hasTargetExists (errMsg : String) : Bool :=
  containsSub targetExistsMarker errMsg.data

/-- Leftmost match of the regex TARGET_EXISTS\|(.+): scan positions left to
right; at the first position where the literal marker matches and at least one
non-line-terminator character follows, capture the maximal run of
non-line-terminator characters; otherwise keep scanning. -/
def matchTargetExists : List Char → Option (List Char)
  | [] => none
  | c :: rest =>
    if targetExistsMarker.isPrefixOf (c :: rest) then
      match ((c :: rest).drop targetExistsMarker.length).takeWhile (fun d => !isLineTerm d) with
      | [] => matchTargetExists rest
      | d :: line => some (d :: line)
    else matchTargetExists rest

/-- Embeds the inline extraction used by handleToggleTool and syncSkillToTools:
const match = errMsg.match(regex); match ? match[1] : the empty string. -/
def extractTargetPath (errMsg : String) : String :=
  match matchTargetExists errMsg.data with
  | some cs => String.mk cs
  | none => ""

/-- Embeds parseTargetExistsError from errorHandlers: null unless the message
contains the marker; otherwise the regex capture, or null when the regex
does not match. -/
def parseTargetExistsError (errMsg : String) : Option String :=
  if hasTargetExists errMsg then
    match matchTargetExists errMsg.data with
    | some cs => some (String.mk cs)
    | none => none
  else none

/-- Splitting on a separator character, mirroring String.prototype.split with a
one-character separator. -/
def splitOnChar (sep : Char) : List Char → List (List Char)
  | [] => [[]]
  | c :: rest =>
    let r := splitOnChar sep rest
    if c = sep then [] :: r
    else
      match r with
      | [] => [[c]]
      | x :: xs => (c :: x) :: xs

/-- Indexing into the split parts, mirroring parts[i] followed by the
JavaScript or-with-empty-string default. -/
def getPart (parts : List (List Char)) (i : Nat) : String :=
  match parts.get? i with
  | some cs => String.mk cs
  | none => ""

/-- Embeds allTools.find by id with the label-or-fallback idiom
(tool?.label || toolId): the label when the tool is found and its label is a
nonempty string, the raw id otherwise. -/
def toolLabelFor (allTools : List ToolOption) (toolId : String) : String :=
  match allTools.find? (fun t => t.id = toolId) with
  | some t => if t.label = "" then toolId else t.label
  | none => toolId

/-- The user-visible outcome of showGitError. The branch for git-specific
errors and the plain-message branch are collapsed into one constructor, since
both display the message without any structured decoding; the claims only
concern the TOOL_NOT_INSTALLED branch. -/
inductive GitErrorDisplay where
  | toolNotInstalled (toolKey : String) (skillsPath : String) (toolName : String)
  | other (msg : String)
deriving Repr, DecidableEq

/-- Embeds showGitError from errorHandlers: messages starting with the
TOOL_NOT_INSTALLED marker are split on the pipe character into
toolKey (part 1) and skillsPath (part 2), and the display name is resolved
against allTools; every other message is shown as-is. -/
def showGitError (errMsg : String) (allTools : List ToolOption) : GitErrorDisplay :=
  if "TOOL_NOT_INSTALLED|".data.isPrefixOf errMsg.data then
    let parts := splitOnChar '|' errMsg.data
    let toolKey := getPart parts 1
    let skillsPath := getPart parts 2
    GitErrorDisplay.toolNotInstalled toolKey skillsPath (toolLabelFor allTools toolKey)
  else
    GitErrorDisplay.other errMsg

/-! Observable events.

Each handler is embedded as a function returning the ordered list of its
observable effects: backend calls (with their results), user prompts, console
log entries, user-facing notifications, state updates and busy-flag writes. -/

/-- One observable effect of a handler run. -/
inductive Event where
  | apiSync (toolId : String) (overwrite : Bool) (r : ApiResult)
  | apiUnsync (toolId : String) (r : ApiResult)
  | apiUpdate (r : ApiResult)
  | apiDelete (skillId : String) (r : ApiResult)
  | apiReorder (ids : List String) (r : ApiResult)
  | apiRefresh (r : ApiResult)
  | apiTray (r : ApiResult)
  | promptOverwrite (skillName : String) (toolLabel : String) (targetPath : String)
  | showGit (msg : String)
  | msgError (msg : String)
  | logError (msg : String)
  | logInfo (msg : String)
  | setSkills (ids : List String)
  | setDeleteId (id : Option String)
  | busy (b : Bool)
deriving Repr, DecidableEq

/-- Busy-flag writes of a trace, in order. -/
def busyOf : Event → Option Bool
  | Event.busy b => some b
  | _ => none

/-- Busy-flag writes of a trace, in order. -/
def busyEvents (tr : List Event) : List Bool := tr.filterMap busyOf

/-- The conflict prompts of a trace (confirmTargetOverwrite invocations), each
as the (skillName, toolLabel, targetPath) triple passed to the dialog. -/
def promptOf : Event → Option (String × String × String)
  | Event.promptOverwrite s l p => some (s, l, p)
  | _ => none

/-- The conflict prompts of a trace (confirmTargetOverwrite invocations). -/
def prompts (tr : List Event) : List (String × String × String) := tr.filterMap promptOf

/-- The initial (overwrite = false) sync calls of a trace, by tool, in order. -/
def firstAttemptOf : Event → Option String
  | Event.apiSync t false _ => some t
  | _ => none

/-- The initial (overwrite = false) sync calls of a trace, by tool, in order. -/
def firstAttempts (tr : List Event) : List String := tr.filterMap firstAttemptOf

/-- The console log entries of a trace, in order. -/
def logOf : Event → Option String
  | Event.logError m => some m
  | Event.logInfo m => some m
  | _ => none

/-- The console log entries of a trace, in order. -/
def logs (tr : List Event) : List String := tr.filterMap logOf

/-- The reorder persistence calls of a trace, with ordered ids and results. -/
def reorderCallOf : Event → Option (List String × ApiResult)
  | Event.apiReorder ids r => some (ids, r)
  | _ => none

/-- The reorder persistence calls of a trace, with ordered ids and results. -/
def reorderCalls (tr : List Event) : List (List String × ApiResult) := tr.filterMap reorderCallOf

/-- The setSkills writes of a trace, as lists of skill ids, in order; the first
one after an optimistic update is the optimistic visible order. -/
def setSkillsOf : Event → Option (List String)
  | Event.setSkills ids => some ids
  | _ => none

/-- The head of the setSkills writes: the optimistic visible order. -/
def firstSetSkills (tr : List Event) : Option (List String) :=
  (tr.filterMap setSkillsOf).head?

/-! The batch helper syncSkillToTools. -/

/-- The onTargetExists policy of SyncSkillToToolsOptions. -/
inductive OnTargetExists where
  | confirm
  | skip
deriving Repr, DecidableEq

/-- The options record of syncSkillToTools (the translation function t is an
out-of-scope presentation collaborator and is omitted). -/
structure SyncSkillToToolsOptions where
  skillId : String
  centralPath : String
  skillName : String
  selectedTools : List String
  allTools : List ToolOption
  onTargetExists : OnTargetExists

/-- Environment for one batch run: the result of api.syncSkillToTool per
(toolId, overwrite flag), and the user answer to confirmTargetOverwrite per
toolId (true = overwrite, false = skip). -/
structure SyncEnv where
  beh : String → Bool → ApiResult
  answer : String → Bool

/-- One iteration of the syncSkillToTools loop for a single toolId: attempt the
sync without overwrite; on a TARGET_EXISTS error under the confirm policy,
prompt and, if accepted, retry with overwrite (logging a retry failure); under
the skip policy log and continue; log any other error. -/
def syncToolStep (opts : SyncSkillToToolsOptions) (env : SyncEnv) (toolId : String) :
    List Event :=
  match env.beh toolId false with
  | ApiResult.ok => [Event.apiSync toolId false ApiResult.ok]
  | ApiResult.err errMsg =>
    Event.apiSync toolId false (ApiResult.err errMsg) ::
    (if hasTargetExists errMsg then
      match opts.onTargetExists with
      | OnTargetExists.confirm =>
        Event.promptOverwrite opts.skillName (toolLabelFor opts.allTools toolId)
            (extractTargetPath errMsg) ::
        (if env.answer toolId then
          match env.beh toolId true with
          | ApiResult.ok => [Event.apiSync toolId true ApiResult.ok]
          | ApiResult.err retryErr =>
            [Event.apiSync toolId true (ApiResult.err retryErr),
             Event.logError ("Failed to overwrite sync to " ++ toolId ++ ": " ++ retryErr)]
        else [])
      | OnTargetExists.skip =>
        [Event.logInfo ("Skipping " ++ toolId ++ ": target exists (already synced)")]
    else [Event.logError ("Failed to sync to " ++ toolId ++ ": " ++ errMsg)])

/-- Embeds syncSkillToTools: iterate selectedTools in order, handling each tool
with syncToolStep; every error is handled inside the loop body, so the batch
always runs to completion. -/
def syncSkillToTools (opts : SyncSkillToToolsOptions) (env : SyncEnv) : List Event :=
  opts.selectedTools.flatMap (syncToolStep opts env)

/-- Whether the trace contains a successful materialize call for the tool. -/
def syncCallSucceeded (tr : List Event) (toolId : String) : Bool :=
  tr.any (fun e =>
    match e with
    | Event.apiSync t _ ApiResult.ok => t = toolId
    | _ => false)

/-- Modelled from the spec: the backend materialize contract (spec sections 3
and 6) — a successful materialize for (skill, tool) adds the SyncTarget entry
for that tool and a failed one leaves the target set unchanged. The skillsApi
module is not under src, so the set of tools holding a target after a batch is
derived from the trace of backend calls per this contract. -/
def finalSyncedTools (opts : SyncSkillToToolsOptions) (env : SyncEnv)
    (initial : List String) : List String :=
  initial ++ opts.selectedTools.filter (fun t => syncCallSucceeded (syncSkillToTools opts env) t)

/-! The toggle handler handleToggleTool. -/

/-- Environment for one handleToggleTool run: results of
api.unsyncSkillFromTool, api.syncSkillToTool (by overwrite flag), refresh and
refreshTrayMenu, and the user answer to confirmTargetOverwrite. -/
structure ToggleEnv where
  unsyncRes : ApiResult
  syncRes : Bool → ApiResult
  refreshRes : ApiResult
  trayRes : ApiResult
  answer : Bool

/-- The refresh tail of the try block of handleToggleTool: after the toggle
operation resolved, await refresh and then refreshTrayMenu, stopping at the
first rejection, whose message is returned for the catch block. -/
def withRefresh (pre : List Event) (env : ToggleEnv) : List Event × Option String :=
  match env.refreshRes with
  | ApiResult.err m => (pre ++ [Event.apiRefresh (ApiResult.err m)], some m)
  | ApiResult.ok =>
    match env.trayRes with
    | ApiResult.err m =>
      (pre ++ [Event.apiRefresh ApiResult.ok, Event.apiTray (ApiResult.err m)], some m)
    | ApiResult.ok =>
      (pre ++ [Event.apiRefresh ApiResult.ok, Event.apiTray ApiResult.ok], none)

/-- The try block of handleToggleTool: unsync when a target entry for the tool
exists, otherwise sync without overwrite; on success refresh, then refresh the
tray menu. Returns the events together with the message of the first rejected
call, if any, which the catch block then handles. -/
def toggleTryBlock (skill : ManagedSkill) (toolId : String) (env : ToggleEnv) :
    List Event × Option String :=
  if (skill.targets.find? (fun t => t.tool = toolId)).isSome then
    match env.unsyncRes with
    | ApiResult.err m => ([Event.apiUnsync toolId (ApiResult.err m)], some m)
    | ApiResult.ok => withRefresh [Event.apiUnsync toolId ApiResult.ok] env
  else
    match env.syncRes false with
    | ApiResult.err m => ([Event.apiSync toolId false (ApiResult.err m)], some m)
    | ApiResult.ok => withRefresh [Event.apiSync toolId false ApiResult.ok] env

/-- The overwrite retry of handleToggleTool after the user accepts the
conflict prompt: sync with overwrite, refresh, refresh the tray menu; the
inner catch shows the message of the first rejected call. -/
def toggleRetry (toolId : String) (env : ToggleEnv) : List Event :=
  match env.syncRes true with
  | ApiResult.err m => [Event.apiSync toolId true (ApiResult.err m), Event.msgError m]
  | ApiResult.ok =>
    match env.refreshRes with
    | ApiResult.err m =>
      [Event.apiSync toolId true ApiResult.ok, Event.apiRefresh (ApiResult.err m),
       Event.msgError m]
    | ApiResult.ok =>
      match env.trayRes with
      | ApiResult.err m =>
        [Event.apiSync toolId true ApiResult.ok, Event.apiRefresh ApiResult.ok,
         Event.apiTray (ApiResult.err m), Event.msgError m]
      | ApiResult.ok =>
        [Event.apiSync toolId true ApiResult.ok, Event.apiRefresh ApiResult.ok,
         Event.apiTray ApiResult.ok]

/-- The catch block of handleToggleTool: a message containing the
TARGET_EXISTS marker triggers the conflict prompt and, when accepted, the
overwrite retry; any other message goes to showGitError. The check is applied
to whatever call rejected inside the try block, the unsync call included. -/
def toggleCatch (skill : ManagedSkill) (toolId : String) (allTools : List ToolOption)
    (env : ToggleEnv) (errMsg : String) : List Event :=
  if hasTargetExists errMsg then
    Event.promptOverwrite skill.name (toolLabelFor allTools toolId)
        (extractTargetPath errMsg) ::
    (if env.answer then toggleRetry toolId env else [])
  else
    [Event.showGit errMsg]

/-- Embeds handleToggleTool: set the busy flag, run the try block, hand any
rejection to the catch block, and clear the busy flag in the finally block. -/
def handleToggleTool (skill : ManagedSkill) (toolId : String)
    (allTools : List ToolOption) (env : ToggleEnv) : List Event :=
  Event.busy true ::
    ((toggleTryBlock skill toolId env).1 ++
      (match (toggleTryBlock skill toolId env).2 with
       | some m => toggleCatch skill toolId allTools env m
       | none => []) ++
      [Event.busy false])

/-! The update and delete handlers. -/

/-- Embeds handleUpdate: set busy, call updateSkill, route a rejection through
showGitError, clear busy in the finally block. -/
def handleUpdate (updRes : ApiResult) : List Event :=
  Event.busy true ::
    ((match updRes with
      | ApiResult.ok => [Event.apiUpdate ApiResult.ok]
      | ApiResult.err m => [Event.apiUpdate (ApiResult.err m), Event.showGit m]) ++
      [Event.busy false])

/-- Embeds confirmDelete: an unset deleteSkillId returns before any effect;
otherwise set busy, delete, clear the staged id, refresh the tray menu, route
a rejection through showGitError, and clear busy in the finally block. -/
def confirmDelete (deleteSkillId : Option String) (deleteRes trayRes : ApiResult) :
    List Event :=
  match deleteSkillId with
  | none => []
  | some sid =>
    Event.busy true ::
      ((match deleteRes with
        | ApiResult.err m => [Event.apiDelete sid (ApiResult.err m), Event.showGit m]
        | ApiResult.ok =>
          Event.apiDelete sid ApiResult.ok :: Event.setDeleteId none ::
            (match trayRes with
             | ApiResult.err m => [Event.apiTray (ApiResult.err m), Event.showGit m]
             | ApiResult.ok => [Event.apiTray ApiResult.ok])) ++
        [Event.busy false])

/-! The reorder handler handleDragEnd. -/

/-- Embeds arrayMove of the dnd-kit sortable package: copy the array, remove
the element at the source index, reinsert it at the destination index. The
handler only calls it with indices returned by findIndex on the same list, for
which splice-based insertion and insertIdx agree. -/
def arrayMove (l : List ManagedSkill) (i j : Nat) : List ManagedSkill :=
  match l.get? i with
  | some x => (l.eraseIdx i).insertIdx j x
  | none => l

/-- The fields of the drag-end event that the handler reads: the dragged id
and the id under the cursor (none when the drop happened outside any target). -/
structure DragEvent where
  activeId : String
  overId : Option String
deriving Repr, DecidableEq

/-- Embeds handleDragEnd: return early when there is no target under the
cursor, when the dragged and target ids coincide, or when either id does not
resolve in the list; otherwise apply the moved order optimistically, persist
the ids, refresh the tray menu, and on any rejection log, restore the
pre-move snapshot and show a generic failure notice. Returns the final
in-memory list together with the trace. -/
def handleDragEnd (skills : List ManagedSkill) (ev : DragEvent)
    (reorderRes trayRes : ApiResult) : List ManagedSkill × List Event :=
  match ev.overId with
  | none => (skills, [])
  | some overId =>
    if ev.activeId = overId then (skills, [])
    else
      match skills.findIdx? (fun s => s.id = ev.activeId),
            skills.findIdx? (fun s => s.id = overId) with
      | some oldIndex, some newIndex =>
        let newSkills := arrayMove skills oldIndex newIndex
        let newIds := newSkills.map (fun s => s.id)
        let oldIds := skills.map (fun s => s.id)
        (match reorderRes with
         | ApiResult.err m =>
           (skills,
            [Event.setSkills newIds, Event.apiReorder newIds (ApiResult.err m),
             Event.logError ("Failed to reorder skills: " ++ m),
             Event.setSkills oldIds, Event.msgError "common.error"])
         | ApiResult.ok =>
           match trayRes with
           | ApiResult.err m =>
             (skills,
              [Event.setSkills newIds, Event.apiReorder newIds ApiResult.ok,
               Event.apiTray (ApiResult.err m),
               Event.logError ("Failed to reorder skills: " ++ m),
               Event.setSkills oldIds, Event.msgError "common.error"])
           | ApiResult.ok =>
             (newSkills,
              [Event.setSkills newIds, Event.apiReorder newIds ApiResult.ok,
               Event.apiTray ApiResult.ok]))
      | some _, none => (skills, [])
      | none, some _ => (skills, [])
      | none, none => (skills, [])

/-! Concrete fixtures used by counterexamples and witnesses. -/

/-- A skill with the given id and no targets, for reorder scenarios. -/
def mkSkill (i : String) : ManagedSkill :=
  { id := i, name := i, central_path := i, targets := [] }

/-- The four-skill ordering of the reorder round-trip scenario. -/
def skills1234 : List ManagedSkill :=
  [mkSkill "1", mkSkill "2", mkSkill "3", mkSkill "4"]

/-- Dragging the skill at index 0 onto the skill at index 2. -/
def dragMove02 : DragEvent := { activeId := "1", overId := some "3" }

/-- Three known tools A, B, C. -/
def toolsABC : List ToolOption :=
  [{ id := "A", label := "Tool A" }, { id := "B", label := "Tool B" },
   { id := "C", label := "Tool C" }]

/-- A confirm-policy batch over the ordered tool list [A, B, C]. -/
def optsConfirmABC : SyncSkillToToolsOptions :=
  { skillId := "s1", centralPath := "/central/s1", skillName := "Skill One",
    selectedTools := ["A", "B", "C"], allTools := toolsABC,
    onTargetExists := OnTargetExists.confirm }

/-- A skip-policy batch over the ordered tool list [A, B, C]. -/
def optsSkipABC : SyncSkillToToolsOptions :=
  { skillId := "s1", centralPath := "/central/s1", skillName := "Skill One",
    selectedTools := ["A", "B", "C"], allTools := toolsABC,
    onTargetExists := OnTargetExists.skip }

/-- A confirm-policy batch over the single-tool list [A]. -/
def optsConfirmA : SyncSkillToToolsOptions :=
  { skillId := "s1", centralPath := "/central/s1", skillName := "Skill One",
    selectedTools := ["A"], allTools := toolsABC,
    onTargetExists := OnTargetExists.confirm }

/-- Backend where the targets of B and C are occupied, overwriting always
succeeds, and the user accepts every overwrite prompt. -/
def envBCOccupied : SyncEnv :=
  { beh := fun toolId overwrite =>
      if overwrite then ApiResult.ok
      else if toolId = "B" then ApiResult.err "TARGET_EXISTS|/targets/B/skill.md"
      else if toolId = "C" then ApiResult.err "TARGET_EXISTS|/targets/C/skill.md"
      else ApiResult.ok,
    answer := fun _ => true }

/-- Backend where only the target of B is occupied and everything else
succeeds; no prompt is ever answered because none is shown. -/
def envBOccupied : SyncEnv :=
  { beh := fun toolId overwrite =>
      if toolId = "B" && !overwrite then ApiResult.err "TARGET_EXISTS|/targets/B/skill.md"
      else ApiResult.ok,
    answer := fun _ => false }

/-- Backend where every call succeeds. -/
def envAllOk : SyncEnv :=
  { beh := fun _ _ => ApiResult.ok, answer := fun _ => false }

/-- Backend where the initial sync to A fails with a non-conflict error. -/
def envANotInstalled : SyncEnv :=
  { beh := fun toolId overwrite =>
      if toolId = "A" && !overwrite then ApiResult.err "TOOL_NOT_INSTALLED|A|/skills"
      else ApiResult.ok,
    answer := fun _ => false }

/-- A skill that already holds a target entry for tool T. -/
def skillSyncedT : ManagedSkill :=
  { id := "s1", name := "Skill One", central_path := "/central/s1",
    targets := [{ tool := "T", path := "/targets/T/skill.md" }] }

/-- Toggle environment where the unsync call rejects with a message carrying
the TARGET_EXISTS marker; everything else succeeds. -/
def envUnsyncConflictMsg : ToggleEnv :=
  { unsyncRes := ApiResult.err "TARGET_EXISTS|/targets/T/skill.md",
    syncRes := fun _ => ApiResult.ok,
    refreshRes := ApiResult.ok, trayRes := ApiResult.ok, answer := false }

/-- Toggle environment where the unsync call rejects with a generic message
not carrying the TARGET_EXISTS marker. -/
def envUnsyncPlainFail : ToggleEnv :=
  { unsyncRes := ApiResult.err "io failure while removing link",
    syncRes := fun _ => ApiResult.ok,
    refreshRes := ApiResult.ok, trayRes := ApiResult.ok, answer := false }

/-- Whether an api result is a TARGET_EXISTS conflict as the code classifies
it: a rejection whose message contains the marker. -/
def isConflictResult : ApiResult → Bool
  | ApiResult.ok => false
  | ApiResult.err m => hasTargetExists m

/-- Whether an api result is free of the TARGET_EXISTS marker: success, or a
rejection whose message does not contain the marker. -/
def resultNotConflict : ApiResult → Bool
  | ApiResult.ok => true
  | ApiResult.err m => !hasTargetExists m

/-! Helper lemmas about the scanning functions. -/

theorem isPrefixOf_append_self (pat y : List Char) : pat.isPrefixOf (pat ++ y) = true := by
  induction pat with
  | nil => simp [List.isPrefixOf]
  | cons c cs ih => simp [List.isPrefixOf, ih]

theorem matchTargetExists_cons (c : Char) (rest : List Char) :
    matchTargetExists (c :: rest) =
      if targetExistsMarker.isPrefixOf (c :: rest) = true then
        match ((c :: rest).drop targetExistsMarker.length).takeWhile (fun d => !isLineTerm d) with
        | [] => matchTargetExists rest
        | d :: line => some (d :: line)
      else matchTargetExists rest := by
  simp only [matchTargetExists]

theorem length_le_of_isPrefixOf {pat l : List Char} (h : pat.isPrefixOf l = true) :
    pat.length ≤ l.length := by
  induction pat generalizing l with
  | nil => simp
  | cons c cs ih =>
    cases l with
    | nil => simp [List.isPrefixOf] at h
    | cons d ds =>
      simp only [List.isPrefixOf, Bool.and_eq_true] at h
      simpa using ih h.2

theorem containsSub_append (x y : List Char) (pat : List Char)
    (h : pat.isPrefixOf y = true) : containsSub pat (x ++ y) = true := by
  induction x with
  | nil =>
    cases y with
    | nil =>
      cases pat with
      | nil => rfl
      | cons c cs => simp [List.isPrefixOf] at h
    | cons d ds => simp [containsSub, h]
  | cons c cs ih => simp [containsSub, ih]

theorem matchTargetExists_short {s : List Char}
    (h : s.length < targetExistsMarker.length) : matchTargetExists s = none := by
  induction s with
  | nil => rfl
  | cons c cs ih =>
    have hp : targetExistsMarker.isPrefixOf (c :: cs) = false := by
      cases hcase : targetExistsMarker.isPrefixOf (c :: cs) with
      | false => rfl
      | true => exact absurd (length_le_of_isPrefixOf hcase) (by omega)
    have hlen : cs.length < targetExistsMarker.length := by
      simp at h; omega
    rw [matchTargetExists_cons, if_neg (by simp [hp]), ih hlen]

theorem matchTargetExists_skip (p rest : List Char)
    (h : ∀ k, k < p.length → targetExistsMarker.isPrefixOf ((p ++ rest).drop k) = false) :
    matchTargetExists (p ++ rest) = matchTargetExists rest := by
  induction p with
  | nil => rfl
  | cons c cs ih =>
    have h0 : targetExistsMarker.isPrefixOf (c :: (cs ++ rest)) = false := by
      have := h 0 (by simp)
      simpa using this
    have hrec : ∀ k, k < cs.length →
        targetExistsMarker.isPrefixOf ((cs ++ rest).drop k) = false := by
      intro k hk
      have := h (k + 1) (by simp; omega)
      simpa using this
    rw [List.cons_append, matchTargetExists_cons, if_neg (by simp [h0]), ih hrec]

theorem matchTargetExists_at_marker (r : List Char)
    (hclean : ∀ c ∈ r, isLineTerm c = false) :
    matchTargetExists (targetExistsMarker ++ r) =
      (match r with | [] => none | d :: line => some (d :: line)) := by
  have hm : targetExistsMarker ++ r = 'T' :: ("ARGET_EXISTS|".data ++ r) := by
    rw [show targetExistsMarker = 'T' :: "ARGET_EXISTS|".data from by decide]
    rfl
  have hpre : targetExistsMarker.isPrefixOf ('T' :: ("ARGET_EXISTS|".data ++ r)) = true := by
    rw [← hm]; exact isPrefixOf_append_self _ _
  have hdrop : ('T' :: ("ARGET_EXISTS|".data ++ r)).drop targetExistsMarker.length = r := by
    rw [← hm]; exact List.drop_left _ _
  have htake : r.takeWhile (fun d => !isLineTerm d) = r :=
    List.takeWhile_eq_self_iff.mpr (fun c hc => by simp [hclean c hc])
  rw [hm, matchTargetExists_cons, if_pos hpre, hdrop, htake]
  cases r with
  | nil =>
    show matchTargetExists ("ARGET_EXISTS|".data ++ ([] : List Char)) = none
    rw [List.append_nil]
    exact matchTargetExists_short (by decide)
  | cons d line => rfl

/-- Claim C8: the error-string parser maps the wire string
TARGET_EXISTS|/a/b/skill.md to a target-exists conflict with path payload
/a/b/skill.md, and maps the wire string TOOL_NOT_INSTALLED|vscode|/skills to a
tool-not-installed error with toolKey vscode and skillsPath /skills
(pipe-delimited, prefix-tagged decoding). -/
theorem C8_error_string_parsing :
    parseTargetExistsError "TARGET_EXISTS|/a/b/skill.md" = some "/a/b/skill.md" ∧
    showGitError "TOOL_NOT_INSTALLED|vscode|/skills" [] =
      GitErrorDisplay.toolNotInstalled "vscode" "/skills" "vscode" := by
  constructor
  · rfl
  · rfl

/-- Claim C10, counterexample: the claim asserts the extracted path is the
entire remainder of the message after the first occurrence of the marker, but
the JavaScript regex dot stops at line terminators: on the message
TARGET_EXISTS|a, newline, b the code extracts only the segment before the
newline. -/
theorem C10_counterexample :
    hasTargetExists "TARGET_EXISTS|a\nb" = true ∧
    extractTargetPath "TARGET_EXISTS|a\nb" = "a" ∧
    "a" ≠ "a\nb" := by
  refine ⟨rfl, rfl, ?_⟩
  decide

/-- Claim C10 as amended: classification is by substring containment anywhere
in the message (not only as a prefix), and, provided the remainder after the
first marker occurrence contains no line-terminator characters, the extracted
path is that entire remainder, further pipe characters included, and the empty
string when nothing follows the pipe. Without the no-line-terminator proviso
the capture stops at the first line terminator. -/
theorem C10_extraction (p r : List Char)
    (hfirst : ∀ k, k < p.length →
      targetExistsMarker.isPrefixOf ((p ++ (targetExistsMarker ++ r)).drop k) = false)
    (hclean : ∀ c ∈ r, isLineTerm c = false) :
    hasTargetExists (String.mk (p ++ targetExistsMarker ++ r)) = true ∧
    extractTargetPath (String.mk (p ++ targetExistsMarker ++ r)) = String.mk r := by
  have hassoc : p ++ targetExistsMarker ++ r = p ++ (targetExistsMarker ++ r) :=
    List.append_assoc _ _ _
  constructor
  · show containsSub targetExistsMarker (p ++ targetExistsMarker ++ r) = true
    rw [hassoc]
    exact containsSub_append _ _ _ (isPrefixOf_append_self _ _)
  · show (match matchTargetExists (p ++ targetExistsMarker ++ r) with
      | some cs => String.mk cs
      | none => "") = String.mk r
    rw [hassoc, matchTargetExists_skip _ _ hfirst, matchTargetExists_at_marker r hclean]
    cases r with
    | nil => rfl
    | cons d line => rfl

/-- Claim C10 witness: the amended extraction theorem applied to the message
xTARGET_EXISTS|/a|b, whose marker occurrence is not a prefix and whose payload
contains a further pipe character. -/
theorem C10_extraction_witness :
    hasTargetExists (String.mk ("x".data ++ targetExistsMarker ++ "/a|b".data)) = true ∧
    extractTargetPath (String.mk ("x".data ++ targetExistsMarker ++ "/a|b".data)) =
      String.mk "/a|b".data :=
  C10_extraction "x".data "/a|b".data
    (by
      intro k hk
      rw [show ("x".data : List Char).length = 1 from by decide] at hk
      have hz : k = 0 := by omega
      subst hz
      decide)
    (by decide)

/-! Reorder claims. -/

/-- Claim C3: for the skill ordering [1,2,3,4], a reorder moving the element
at index 0 to index 2 produces the order [2,3,1,4] (single-element
remove-and-reinsert, not swap) as the optimistic visible state, and if the
subsequent persistence call fails the final visible state equals the original
[1,2,3,4] exactly, whatever the error message and whatever the tray-refresh
call would have returned. -/
theorem C3_reorder_roundtrip (m : String) (trayRes : ApiResult) :
    firstSetSkills (handleDragEnd skills1234 dragMove02 (ApiResult.err m) trayRes).2 =
      some ["2", "3", "1", "4"] ∧
    (handleDragEnd skills1234 dragMove02 (ApiResult.err m) trayRes).1 = skills1234 := by
  constructor
  · rfl
  · rfl

/-- Claim C3 witness: the round-trip theorem at a concrete persistence error
message with the tray refresh succeeding. -/
theorem C3_reorder_roundtrip_witness :
    firstSetSkills (handleDragEnd skills1234 dragMove02
        (ApiResult.err "db write failed") ApiResult.ok).2 = some ["2", "3", "1", "4"] ∧
    (handleDragEnd skills1234 dragMove02
        (ApiResult.err "db write failed") ApiResult.ok).1 = skills1234 :=
  C3_reorder_roundtrip "db write failed" ApiResult.ok

theorem findIdx?_same_idx {α : Type} {p q : α → Bool} :
    ∀ (l : List α) (j : Nat), l.findIdx? p = some j → l.findIdx? q = some j →
      ∃ x ∈ l, p x = true ∧ q x = true := by
  intro l
  induction l with
  | nil => intro j h; simp at h
  | cons x xs ih =>
    intro j hp hq
    rw [List.findIdx?_cons] at hp hq
    by_cases h1 : p x = true
    · by_cases h2 : q x = true
      · exact ⟨x, by simp, h1, h2⟩
      · simp only [h1, if_true] at hp
        simp [h2] at hq
        obtain ⟨a, _, haj⟩ := hq
        have hj : j = 0 := by simpa using hp.symm
        omega
    · by_cases h2 : q x = true
      · simp only [h2, if_true] at hq
        simp [h1] at hp
        obtain ⟨a, _, haj⟩ := hp
        have hj : j = 0 := by simpa using hq.symm
        omega
      · simp [h1] at hp
        simp [h2] at hq
        obtain ⟨a, hpa, haj⟩ := hp
        obtain ⟨b, hqb, hbj⟩ := hq
        have hab : a = b := by omega
        subst hab
        obtain ⟨y, hy, hpy, hqy⟩ := ih a hpa hqb
        exact ⟨y, by simp [hy], hpy, hqy⟩

/-- Claim C9: a reorder request whose source and destination resolve to the
same entry, or in which either identifier does not resolve to an existing
skill, or which has no drop target at all, is a silent no-op: the in-memory
ordering is unchanged and the trace is empty, so no backend call is made and
no error is surfaced. -/
theorem C9_reorder_noop (skills : List ManagedSkill) (ev : DragEvent)
    (reorderRes trayRes : ApiResult)
    (h : ev.overId = none
      ∨ (∃ o, ev.overId = some o ∧ ev.activeId = o)
      ∨ (∃ o, ev.overId = some o ∧ skills.findIdx? (fun s => s.id = ev.activeId) = none)
      ∨ (∃ o, ev.overId = some o ∧ skills.findIdx? (fun s => s.id = o) = none)
      ∨ (∃ o i, ev.overId = some o ∧
          skills.findIdx? (fun s => s.id = ev.activeId) = some i ∧
          skills.findIdx? (fun s => s.id = o) = some i)) :
    handleDragEnd skills ev reorderRes trayRes = (skills, []) := by
  rcases h with h | ⟨o, ho, hid⟩ | ⟨o, ho, hnf⟩ | ⟨o, ho, hnf⟩ | ⟨o, i, ho, hf1, hf2⟩
  · simp [handleDragEnd, h]
  · subst hid
    simp [handleDragEnd, ho]
  · rcases hcase : decide (ev.activeId = o) with _ | _
    · have hne : ¬ ev.activeId = o := of_decide_eq_false hcase
      simp only [handleDragEnd, ho, if_neg hne, hnf]
      cases skills.findIdx? (fun s => s.id = o) <;> rfl
    · have heq : ev.activeId = o := of_decide_eq_true hcase
      subst heq
      simp [handleDragEnd, ho]
  · rcases hcase : decide (ev.activeId = o) with _ | _
    · have hne : ¬ ev.activeId = o := of_decide_eq_false hcase
      simp only [handleDragEnd, ho, if_neg hne, hnf]
      cases skills.findIdx? (fun s => s.id = ev.activeId) <;> rfl
    · have heq : ev.activeId = o := of_decide_eq_true hcase
      subst heq
      simp [handleDragEnd, ho]
  · obtain ⟨x, _, hx1, hx2⟩ := findIdx?_same_idx skills i hf1 hf2
    have heq : ev.activeId = o := by
      have e1 : x.id = ev.activeId := of_decide_eq_true hx1
      have e2 : x.id = o := of_decide_eq_true hx2
      rw [← e1, e2]
    subst heq
    simp [handleDragEnd, ho]

/-- Claim C9 witness: dragging skill 3 onto itself in the four-skill list is a
silent no-op. -/
theorem C9_reorder_noop_witness :
    handleDragEnd skills1234 { activeId := "3", overId := some "3" }
      ApiResult.ok ApiResult.ok = (skills1234, []) :=
  C9_reorder_noop skills1234 { activeId := "3", overId := some "3" }
    ApiResult.ok ApiResult.ok (Or.inr (Or.inl ⟨"3", rfl, rfl⟩))

/-- Claim C2, counterexample: the claim says a failure of the refresh
collaborator never causes the persisted new order to be replaced by the old
order, but refreshTrayMenu is awaited inside the same try block as the
persistence call, so its rejection triggers the rollback: in this run the
persistence call succeeds with the new order [2,3,1,4], the tray refresh
rejects, and the final visible state is rolled back to the old order. -/
theorem C2_counterexample :
    reorderCalls (handleDragEnd skills1234 dragMove02 ApiResult.ok
        (ApiResult.err "tray unavailable")).2 =
      [(["2", "3", "1", "4"], ApiResult.ok)] ∧
    (handleDragEnd skills1234 dragMove02 ApiResult.ok
        (ApiResult.err "tray unavailable")).1 = skills1234 ∧
    skills1234.map (fun s => s.id) ≠ ["2", "3", "1", "4"] := by
  refine ⟨rfl, rfl, ?_⟩
  decide

/-- Claim C2 as amended: for a resolving, non-trivial move, the in-memory
order is rolled back to the pre-move snapshot if and only if the persist-order
call or the subsequent tray-refresh call fails; the optimistic new order
remains the visible order exactly when both calls succeed. -/
theorem C2_rollback_condition (skills : List ManagedSkill) (ev : DragEvent)
    (o : String) (i j : Nat) (reorderRes trayRes : ApiResult)
    (ho : ev.overId = some o) (hne : ev.activeId ≠ o)
    (hi : skills.findIdx? (fun s => s.id = ev.activeId) = some i)
    (hj : skills.findIdx? (fun s => s.id = o) = some j) :
    (handleDragEnd skills ev reorderRes trayRes).1 =
      (if reorderRes = ApiResult.ok ∧ trayRes = ApiResult.ok then arrayMove skills i j
       else skills) := by
  cases reorderRes with
  | ok =>
    cases trayRes with
    | ok => simp [handleDragEnd, ho, hne, hi, hj]
    | err m => simp [handleDragEnd, ho, hne, hi, hj]
  | err m => simp [handleDragEnd, ho, hne, hi, hj]

/-- Claim C2 witness: the amended rollback condition applied to the concrete
move of skill 1 onto skill 3 with both calls succeeding. -/
theorem C2_rollback_condition_witness :
    (handleDragEnd skills1234 dragMove02 ApiResult.ok ApiResult.ok).1 =
      (if ApiResult.ok = ApiResult.ok ∧ ApiResult.ok = ApiResult.ok
       then arrayMove skills1234 0 2 else skills1234) :=
  C2_rollback_condition skills1234 dragMove02 "3" 0 2 ApiResult.ok ApiResult.ok
    rfl (by decide) (by decide) (by decide)

/-! Busy-flag accounting (claim C4). -/

theorem busyEvents_withRefresh (pre : List Event) (env : ToggleEnv)
    (h : busyEvents pre = []) : busyEvents (withRefresh pre env).1 = [] := by
  unfold withRefresh
  cases h3 : env.refreshRes <;> cases h4 : env.trayRes <;>
    simp [busyEvents, busyOf, List.filterMap_append] <;>
    simpa [busyEvents] using h

theorem busyEvents_toggleTryBlock (skill : ManagedSkill) (toolId : String)
    (env : ToggleEnv) : busyEvents (toggleTryBlock skill toolId env).1 = [] := by
  unfold toggleTryBlock
  by_cases hs : (skill.targets.find? (fun t => t.tool = toolId)).isSome = true
  · rw [if_pos hs]
    cases h1 : env.unsyncRes with
    | ok => exact busyEvents_withRefresh _ env rfl
    | err m => rfl
  · rw [if_neg hs]
    cases h2 : env.syncRes false with
    | ok => exact busyEvents_withRefresh _ env rfl
    | err m => rfl

theorem busyEvents_toggleRetry (toolId : String) (env : ToggleEnv) :
    busyEvents (toggleRetry toolId env) = [] := by
  unfold toggleRetry
  cases h2 : env.syncRes true <;> cases h3 : env.refreshRes <;>
    cases h4 : env.trayRes <;> rfl

theorem busyEvents_toggleCatch (skill : ManagedSkill) (toolId : String)
    (allTools : List ToolOption) (env : ToggleEnv) (m : String) :
    busyEvents (toggleCatch skill toolId allTools env m) = [] := by
  unfold toggleCatch
  by_cases h1 : hasTargetExists m = true
  · by_cases h2 : env.answer = true
    · simp only [h1, if_true, h2]
      show busyEvents (Event.promptOverwrite _ _ _ :: toggleRetry toolId env) = []
      show List.filterMap busyOf (Event.promptOverwrite _ _ _ :: toggleRetry toolId env) = []
      rw [List.filterMap_cons]
      exact busyEvents_toggleRetry toolId env
    · simp [h1, h2, busyEvents, busyOf]
  · simp [h1, busyEvents, busyOf]

theorem busyEvents_handleToggleTool (skill : ManagedSkill) (toolId : String)
    (allTools : List ToolOption) (env : ToggleEnv) :
    busyEvents (handleToggleTool skill toolId allTools env) = [true, false] := by
  unfold handleToggleTool
  show List.filterMap busyOf (Event.busy true :: _) = _
  rw [List.filterMap_cons]
  show true :: List.filterMap busyOf _ = _
  rw [List.filterMap_append, List.filterMap_append]
  have h1 : List.filterMap busyOf (toggleTryBlock skill toolId env).1 = [] :=
    busyEvents_toggleTryBlock skill toolId env
  rw [h1]
  have h2 : List.filterMap busyOf
      (match (toggleTryBlock skill toolId env).2 with
       | some m => toggleCatch skill toolId allTools env m
       | none => []) = [] := by
    cases (toggleTryBlock skill toolId env).2 with
    | none => rfl
    | some m => exact busyEvents_toggleCatch skill toolId allTools env m
  rw [h2]
  rfl

theorem handleToggleTool_getLast (skill : ManagedSkill) (toolId : String)
    (allTools : List ToolOption) (env : ToggleEnv) :
    (handleToggleTool skill toolId allTools env).getLast? = some (Event.busy false) := by
  unfold handleToggleTool
  show ((Event.busy true ::
      ((toggleTryBlock skill toolId env).1 ++
        (match (toggleTryBlock skill toolId env).2 with
         | some m => toggleCatch skill toolId allTools env m
         | none => []))) ++ [Event.busy false]).getLast? = some (Event.busy false)
  exact List.getLast?_concat _

theorem busyEvents_handleUpdate (updRes : ApiResult) :
    busyEvents (handleUpdate updRes) = [true, false] := by
  cases updRes <;> rfl

theorem busyEvents_confirmDelete_some (sid : String) (dRes tRes : ApiResult) :
    busyEvents (confirmDelete (some sid) dRes tRes) = [true, false] := by
  cases dRes <;> cases tRes <;> rfl

theorem busyEvents_handleDragEnd (skills : List ManagedSkill) (ev : DragEvent)
    (r t : ApiResult) : busyEvents (handleDragEnd skills ev r t).2 = [] := by
  unfold handleDragEnd
  cases ev.overId with
  | none => rfl
  | some o =>
    by_cases h : ev.activeId = o
    · simp [h, busyEvents]
    · simp only [if_neg h]
      cases skills.findIdx? (fun s => s.id = ev.activeId) <;>
        cases skills.findIdx? (fun s => s.id = o) <;>
        cases r <;> cases t <;> rfl

/-- Claim C4, counterexample: the claim says the reorder action also sets and
clears the busy flag, but handleDragEnd never touches it: in this run the
reorder performs its delegated persistence call (with the moved order) yet its
trace contains no busy-flag write at all. -/
theorem C4_counterexample :
    busyEvents (handleDragEnd skills1234 dragMove02 ApiResult.ok ApiResult.ok).2 = [] ∧
    reorderCalls (handleDragEnd skills1234 dragMove02 ApiResult.ok ApiResult.ok).2 =
      [(["2", "3", "1", "4"], ApiResult.ok)] :=
  ⟨rfl, rfl⟩

/-- Claim C4 as amended: toggleTool, update and delete-confirmation set the
busy flag first, clear it last, and write it exactly twice on every path
(shown here as the full busy-write sequence [set, clear], the first event
being the set and the last the clear for the toggle action); the
early-return path of delete-confirmation performs no effect at all; and the
reorder action never writes the busy flag on any path. -/
theorem C4_busy_flag (skill : ManagedSkill) (toolId : String)
    (allTools : List ToolOption) (env : ToggleEnv) (updRes : ApiResult)
    (sid : String) (dRes tRes : ApiResult) (skills : List ManagedSkill)
    (ev : DragEvent) (r t : ApiResult) :
    busyEvents (handleToggleTool skill toolId allTools env) = [true, false] ∧
    (handleToggleTool skill toolId allTools env).head? = some (Event.busy true) ∧
    (handleToggleTool skill toolId allTools env).getLast? = some (Event.busy false) ∧
    busyEvents (handleUpdate updRes) = [true, false] ∧
    busyEvents (confirmDelete (some sid) dRes tRes) = [true, false] ∧
    confirmDelete none dRes tRes = [] ∧
    busyEvents (handleDragEnd skills ev r t).2 = [] :=
  ⟨busyEvents_handleToggleTool skill toolId allTools env, rfl,
   handleToggleTool_getLast skill toolId allTools env,
   busyEvents_handleUpdate updRes,
   busyEvents_confirmDelete_some sid dRes tRes, rfl,
   busyEvents_handleDragEnd skills ev r t⟩

/-! Batch iteration lemmas. -/

theorem prompts_append (a b : List Event) :
    prompts (a ++ b) = prompts a ++ prompts b :=
  List.filterMap_append a b promptOf

theorem firstAttempts_append (a b : List Event) :
    firstAttempts (a ++ b) = firstAttempts a ++ firstAttempts b :=
  List.filterMap_append a b firstAttemptOf

theorem syncToolStep_ok (opts : SyncSkillToToolsOptions) (env : SyncEnv) (t : String)
    (h : env.beh t false = ApiResult.ok) :
    syncToolStep opts env t = [Event.apiSync t false ApiResult.ok] := by
  unfold syncToolStep
  rw [h]

theorem syncToolStep_skip (opts : SyncSkillToToolsOptions) (env : SyncEnv) (t m : String)
    (hpol : opts.onTargetExists = OnTargetExists.skip)
    (h : env.beh t false = ApiResult.err m) (hc : hasTargetExists m = true) :
    syncToolStep opts env t =
      [Event.apiSync t false (ApiResult.err m),
       Event.logInfo ("Skipping " ++ t ++ ": target exists (already synced)")] := by
  unfold syncToolStep
  rw [h, hpol]
  simp only [hc]
  rfl

theorem prompts_length_syncToolStep (opts : SyncSkillToToolsOptions) (env : SyncEnv)
    (t : String) (hpol : opts.onTargetExists = OnTargetExists.confirm) :
    (prompts (syncToolStep opts env t)).length =
      (if isConflictResult (env.beh t false) then 1 else 0) := by
  unfold syncToolStep
  cases hb : env.beh t false with
  | ok => rfl
  | err m =>
    cases hc : hasTargetExists m with
    | false => simp only [isConflictResult, hc]; rfl
    | true =>
      rw [hpol]
      cases ha : env.answer t with
      | false => simp only [isConflictResult, hc, ha]; rfl
      | true =>
        cases hbt : env.beh t true <;> (simp only [isConflictResult, hc, ha, hbt]; rfl)

theorem prompts_length_flatMap (opts : SyncSkillToToolsOptions) (env : SyncEnv)
    (hpol : opts.onTargetExists = OnTargetExists.confirm) :
    ∀ l : List String,
      (prompts (l.flatMap (syncToolStep opts env))).length =
        l.countP (fun t => isConflictResult (env.beh t false)) := by
  intro l
  induction l with
  | nil => rfl
  | cons t ts ih =>
    rw [List.flatMap_cons, prompts_append, List.length_append,
      prompts_length_syncToolStep opts env t hpol, ih, List.countP_cons]
    cases hcc : isConflictResult (env.beh t false) <;> simp [hcc, Nat.add_comm]

theorem retry_mem_syncToolStep (opts : SyncSkillToToolsOptions) (env : SyncEnv)
    (t m : String) (hpol : opts.onTargetExists = OnTargetExists.confirm)
    (hb : env.beh t false = ApiResult.err m) (hc : hasTargetExists m = true)
    (ha : env.answer t = true) :
    Event.apiSync t true (env.beh t true) ∈ syncToolStep opts env t := by
  unfold syncToolStep
  rw [hb, hpol]
  cases hbt : env.beh t true <;> simp [hc, ha, hbt]

theorem firstAttempts_syncToolStep (opts : SyncSkillToToolsOptions) (env : SyncEnv)
    (t : String) : firstAttempts (syncToolStep opts env t) = [t] := by
  unfold syncToolStep
  cases hb : env.beh t false with
  | ok => rfl
  | err m =>
    cases hc : hasTargetExists m with
    | false => simp only [hc]; rfl
    | true =>
      cases hp : opts.onTargetExists with
      | skip => simp only [hc, hp]; rfl
      | confirm =>
        cases ha : env.answer t with
        | false => simp only [hc, hp, ha]; rfl
        | true =>
          cases hbt : env.beh t true <;> (simp only [hc, hp, ha, hbt]; rfl)

theorem firstAttempts_flatMap (opts : SyncSkillToToolsOptions) (env : SyncEnv) :
    ∀ l : List String, firstAttempts (l.flatMap (syncToolStep opts env)) = l := by
  intro l
  induction l with
  | nil => rfl
  | cons t ts ih =>
    rw [List.flatMap_cons, firstAttempts_append, firstAttempts_syncToolStep, ih]
    rfl

theorem log_mem_syncToolStep (opts : SyncSkillToToolsOptions) (env : SyncEnv)
    (t m : String) (hb : env.beh t false = ApiResult.err m)
    (hc : hasTargetExists m = false) :
    Event.logError ("Failed to sync to " ++ t ++ ": " ++ m) ∈ syncToolStep opts env t := by
  unfold syncToolStep
  rw [hb]
  simp [hc]

/-! Batch sync claims. -/

/-- Claim C1, counterexample: the claim asserts that answering overwrite-all
at the prompt for B suppresses the prompt for C, but the batch engine
syncSkillToTools resolves each conflict with the two-way confirmTargetOverwrite
dialog — an overwrite-all answer does not exist in its contract, and no prompt
suppression is implemented: in this confirm-policy run over [A, B, C] with B
and C occupied and the user answering overwrite (the strongest available
answer) at B, a second conflict prompt is still presented for C. -/
theorem C1_counterexample :
    prompts (syncSkillToTools optsConfirmABC envBCOccupied) =
      [("Skill One", "Tool B", "/targets/B/skill.md"),
       ("Skill One", "Tool C", "/targets/C/skill.md")] ∧
    (prompts (syncSkillToTools optsConfirmABC envBCOccupied)).length ≠ 1 := by
  refine ⟨rfl, ?_⟩
  decide

/-- Claim C1 as amended: under the confirm policy the batch engine presents
one two-way overwrite-or-skip prompt for every tool whose initial sync fails
with a TARGET_EXISTS error — there is no overwrite-all answer and no prompt
suppression for later conflicts — and whenever the user accepts a prompt, only
that tool is re-synced with overwrite set. -/
theorem C1_confirm_prompts (opts : SyncSkillToToolsOptions) (env : SyncEnv)
    (hpol : opts.onTargetExists = OnTargetExists.confirm) :
    (prompts (syncSkillToTools opts env)).length =
      opts.selectedTools.countP (fun t => isConflictResult (env.beh t false)) ∧
    ∀ t ∈ opts.selectedTools, ∀ m, env.beh t false = ApiResult.err m →
      hasTargetExists m = true → env.answer t = true →
      Event.apiSync t true (env.beh t true) ∈ syncSkillToTools opts env := by
  constructor
  · exact prompts_length_flatMap opts env hpol opts.selectedTools
  · intro t ht m hb hc ha
    exact List.mem_flatMap.mpr ⟨t, ht, retry_mem_syncToolStep opts env t m hpol hb hc ha⟩

/-- Claim C1 witness: the amended per-conflict prompt count and the overwrite
retry, on the confirm-policy run over [A, B, C] with B and C occupied. -/
theorem C1_confirm_prompts_witness :
    (prompts (syncSkillToTools optsConfirmABC envBCOccupied)).length =
      optsConfirmABC.selectedTools.countP
        (fun t => isConflictResult (envBCOccupied.beh t false)) ∧
    Event.apiSync "B" true (envBCOccupied.beh "B" true) ∈
      syncSkillToTools optsConfirmABC envBCOccupied :=
  ⟨(C1_confirm_prompts optsConfirmABC envBCOccupied rfl).1,
   (C1_confirm_prompts optsConfirmABC envBCOccupied rfl).2 "B" (by decide)
     "TARGET_EXISTS|/targets/B/skill.md" rfl (by decide) rfl⟩

/-- Claim C5, counterexample: the claim asserts the batch completes with a
per-target result map recording each tool outcome, but syncSkillToTools
returns nothing: in this run over [A] where A succeeds, the whole observable
outcome is the backend call itself — no log entry and no other record of the
outcome of A is produced anywhere. -/
theorem C5_counterexample :
    syncSkillToTools optsConfirmA envAllOk = [Event.apiSync "A" false ApiResult.ok] ∧
    logs (syncSkillToTools optsConfirmA envAllOk) = [] ∧
    optsConfirmA.selectedTools ≠ [] := by
  refine ⟨rfl, rfl, ?_⟩
  decide

/-- Claim C5 as amended: the batch never throws and one tool never aborts the
rest — the initial sync call is issued for every tool of the input list, in
input order, whatever each call returns — and every non-conflict error is
converted to a console log entry; but no per-target result map is returned:
outcomes are recorded only as log entries for failures and skips, and
successes are not recorded at all. -/
theorem C5_continue_on_error (opts : SyncSkillToToolsOptions) (env : SyncEnv) :
    firstAttempts (syncSkillToTools opts env) = opts.selectedTools ∧
    ∀ t ∈ opts.selectedTools, ∀ m, env.beh t false = ApiResult.err m →
      hasTargetExists m = false →
      Event.logError ("Failed to sync to " ++ t ++ ": " ++ m) ∈
        syncSkillToTools opts env := by
  constructor
  · exact firstAttempts_flatMap opts env opts.selectedTools
  · intro t ht m hb hc
    exact List.mem_flatMap.mpr ⟨t, ht, log_mem_syncToolStep opts env t m hb hc⟩

/-- Claim C5 witness: in the confirm-policy run over [A, B, C] where the sync
to A fails with a non-conflict error, all three tools are still attempted in
order and the failure of A is logged. -/
theorem C5_continue_on_error_witness :
    firstAttempts (syncSkillToTools optsConfirmABC envANotInstalled) =
      optsConfirmABC.selectedTools ∧
    Event.logError ("Failed to sync to " ++ "A" ++ ": " ++ "TOOL_NOT_INSTALLED|A|/skills") ∈
      syncSkillToTools optsConfirmABC envANotInstalled :=
  ⟨(C5_continue_on_error optsConfirmABC envANotInstalled).1,
   (C5_continue_on_error optsConfirmABC envANotInstalled).2 "A" (by decide)
     "TOOL_NOT_INSTALLED|A|/skills" rfl (by decide)⟩

/-- Claim C6: a skip-policy batch over [A, B, C] where the target of B is
occupied and A and C succeed ends with target entries for A and C and none for
B, shows no prompt at all, and still issues the sync call for every tool in
input order (the batch continues past the skipped tool). -/
theorem C6_skip_policy (a b c : String) (opts : SyncSkillToToolsOptions) (env : SyncEnv)
    (hab : a ≠ b) (hcb : c ≠ b)
    (hsel : opts.selectedTools = [a, b, c])
    (hpol : opts.onTargetExists = OnTargetExists.skip)
    (ha : env.beh a false = ApiResult.ok)
    (hbm : ∃ m, env.beh b false = ApiResult.err m ∧ hasTargetExists m = true)
    (hc : env.beh c false = ApiResult.ok) :
    finalSyncedTools opts env [] = [a, c] ∧
    prompts (syncSkillToTools opts env) = [] ∧
    firstAttempts (syncSkillToTools opts env) = [a, b, c] := by
  obtain ⟨m, hbm1, hbm2⟩ := hbm
  have htr : syncSkillToTools opts env =
      [Event.apiSync a false ApiResult.ok,
       Event.apiSync b false (ApiResult.err m),
       Event.logInfo ("Skipping " ++ b ++ ": target exists (already synced)"),
       Event.apiSync c false ApiResult.ok] := by
    unfold syncSkillToTools
    rw [hsel, List.flatMap_cons, List.flatMap_cons, List.flatMap_cons, List.flatMap_nil,
      syncToolStep_ok opts env a ha, syncToolStep_skip opts env b m hpol hbm1 hbm2,
      syncToolStep_ok opts env c hc]
    rfl
  refine ⟨?_, ?_, ?_⟩
  · unfold finalSyncedTools
    rw [hsel, htr]
    simp [syncCallSucceeded, hab, hcb]
  · rw [htr]; rfl
  · rw [htr]; rfl

/-- Claim C6 witness: the skip-policy theorem applied to the concrete batch
over [A, B, C] with the target of B occupied. -/
theorem C6_skip_policy_witness :
    finalSyncedTools optsSkipABC envBOccupied [] = ["A", "C"] ∧
    prompts (syncSkillToTools optsSkipABC envBOccupied) = [] ∧
    firstAttempts (syncSkillToTools optsSkipABC envBOccupied) = ["A", "B", "C"] :=
  C6_skip_policy "A" "B" "C" optsSkipABC envBOccupied (by decide) (by decide)
    rfl rfl rfl ⟨"TARGET_EXISTS|/targets/B/skill.md", rfl, by decide⟩ rfl

/-! Toggle claims. -/

/-- Claim C7, counterexample: the claim asserts toggle never presents a
conflict prompt when a target entry exists, regardless of the unsync error
string, but the catch block of handleToggleTool is shared between the sync and
unsync paths and classifies by message content: when the unsync call rejects
with a message containing the TARGET_EXISTS marker, a conflict prompt is
presented. -/
theorem C7_counterexample :
    (prompts (handleToggleTool skillSyncedT "T" [] envUnsyncConflictMsg)).length = 1 ∧
    Event.apiUnsync "T" (ApiResult.err "TARGET_EXISTS|/targets/T/skill.md") ∈
      handleToggleTool skillSyncedT "T" [] envUnsyncConflictMsg := by
  refine ⟨rfl, ?_⟩
  decide

/-- Claim C7 as amended: when the skill already holds a target entry for the
tool, toggle invokes the unsync operation and never the sync operation, and no
conflict prompt is presented provided no call of the run rejects with a
message containing the TARGET_EXISTS marker (the shared catch block prompts
exactly on that marker, whichever call produced the message). -/
theorem C7_toggle_unsync (skill : ManagedSkill) (toolId : String)
    (allTools : List ToolOption) (env : ToggleEnv)
    (hsynced : (skill.targets.find? (fun t => t.tool = toolId)).isSome = true)
    (h1 : resultNotConflict env.unsyncRes = true)
    (h2 : resultNotConflict env.refreshRes = true)
    (h3 : resultNotConflict env.trayRes = true) :
    Event.apiUnsync toolId env.unsyncRes ∈ handleToggleTool skill toolId allTools env ∧
    (∀ tid o r, Event.apiSync tid o r ∉ handleToggleTool skill toolId allTools env) ∧
    prompts (handleToggleTool skill toolId allTools env) = [] := by
  unfold handleToggleTool toggleTryBlock withRefresh toggleCatch
  rw [if_pos hsynced]
  cases hu : env.unsyncRes with
  | err m =>
    rw [hu] at h1
    have hm : hasTargetExists m = false := by
      simpa [resultNotConflict] using h1
    simp [hm, prompts, promptOf]
  | ok =>
    cases hr : env.refreshRes with
    | err m =>
      rw [hr] at h2
      have hm : hasTargetExists m = false := by
        simpa [resultNotConflict] using h2
      simp [hm, prompts, promptOf]
    | ok =>
      cases ht : env.trayRes with
      | err m =>
        rw [ht] at h3
        have hm : hasTargetExists m = false := by
          simpa [resultNotConflict] using h3
        simp [hm, prompts, promptOf]
      | ok => simp [prompts, promptOf]

/-- Claim C7 witness: the amended toggle theorem on a skill synced to tool T
whose unsync call rejects with a generic non-conflict message. -/
theorem C7_toggle_unsync_witness :
    Event.apiUnsync "T" envUnsyncPlainFail.unsyncRes ∈
      handleToggleTool skillSyncedT "T" [] envUnsyncPlainFail ∧
    (∀ tid o r, Event.apiSync tid o r ∉
      handleToggleTool skillSyncedT "T" [] envUnsyncPlainFail) ∧
    prompts (handleToggleTool skillSyncedT "T" [] envUnsyncPlainFail) = [] :=
  C7_toggle_unsync skillSyncedT "T" [] envUnsyncPlainFail (by decide) (by decide)
    (by decide) (by decide)

end SkillSync
